import Mathlib

/-!
Verification development for the libeds client session layer (src/index.js).

The JavaScript source is shallowly embedded: byte strings are `List Nat`,
MessagePack-serializable values are the inductive `Value`, the mutable
`EncryptedDatabase` instance is the explicit record `EDSState`, and the
side effects of each method (socket sends, log lines, mutex operations,
resolver callbacks) are reified as an explicit `Event` trace.  External
cryptographic primitives (SHA3, tweetnacl secretbox and box, the wallet's
ECIES capability, z85) are modelled symbolically as computable injective
encodings that satisfy exactly the contracts the source relies on:
authenticated decryption succeeds precisely on a matching (nonce, key)
pair, digests are collision-free on the inputs involved, and encoders are
invertible.  Fallible JavaScript paths (thrown TypeErrors such as
deserializing `null`) are modelled with `Except Unit`.
-/

/-! ## Byte-string helpers: length-prefixed blocks -/

/-- Length-prefixed byte block: used by the symbolic serialization and
cipher models below. -/
def blk (bs : List Nat) : List Nat := bs.length :: bs

/-- Read one length-prefixed block off the front of a byte string. -/
def readBlk (xs : List Nat) : Option (List Nat × List Nat) :=
  match xs with
  | [] => none
  | n :: rest => if n ≤ rest.length then some (rest.take n, rest.drop n) else none

theorem take_append_length (l1 l2 : List Nat) : (l1 ++ l2).take l1.length = l1 := by
  induction l1 with
  | nil => rfl
  | cons a t ih => simp [List.take, ih]

theorem drop_append_length (l1 l2 : List Nat) : (l1 ++ l2).drop l1.length = l2 := by
  induction l1 with
  | nil => rfl
  | cons a t ih => simp [List.drop, ih]

theorem readBlk_blk (bs rest : List Nat) : readBlk (blk bs ++ rest) = some (bs, rest) := by
  simp [readBlk, blk, take_append_length, drop_append_length]

/-! ## The MessagePack value universe and codec

`msgpackr` serializes arbitrary JavaScript values.  The model covers the
shapes the source exchanges: numbers, booleans, binary buffers, arrays and
string-keyed objects.  The encoding is a symbolic injective serialization
with a verified inverse, mirroring the encode/decode contract of the
`msgpackr` library (field keys are byte strings of the property names). -/

mutual

inductive Value : Type where
  | nat : Nat → Value
  | bool : Bool → Value
  | bytes : List Nat → Value
  | arr : ValueList → Value
  | obj : FieldList → Value

inductive ValueList : Type where
  | nil : ValueList
  | cons : Value → ValueList → ValueList

inductive FieldList : Type where
  | fnil : FieldList
  | fcons : List Nat → Value → FieldList → FieldList

end

/-- Number of elements of an array value. -/
def vlen : ValueList → Nat
  | .nil => 0
  | .cons _ vs => vlen vs + 1

/-- Number of fields of an object value. -/
def flen : FieldList → Nat
  | .fnil => 0
  | .fcons _ _ fs => flen fs + 1

mutual

/-- Model of `msgpack` (the `msgpackr` encoder): a tagged, length-framed
injective byte serialization of a value. -/
def msgpackV : Value → List Nat
  | .nat n => [0, n]
  | .bool b => [1, if b then 1 else 0]
  | .bytes bs => 2 :: blk bs
  | .arr vs => 3 :: vlen vs :: msgpackVL vs
  | .obj fs => 4 :: flen fs :: msgpackFL fs

def msgpackVL : ValueList → List Nat
  | .nil => []
  | .cons v vs => msgpackV v ++ msgpackVL vs

def msgpackFL : FieldList → List Nat
  | .fnil => []
  | .fcons k v fs => blk k ++ msgpackV v ++ msgpackFL fs

end

mutual

/-- Fuelled decoder for one serialized value. -/
def parseV : Nat → List Nat → Option (Value × List Nat)
  | 0, _ => none
  | _ + 1, 0 :: n :: rest => some (.nat n, rest)
  | _ + 1, 1 :: b :: rest =>
      if b = 1 then some (.bool true, rest)
      else if b = 0 then some (.bool false, rest) else none
  | _ + 1, 2 :: rest => (readBlk rest).map (fun p => (.bytes p.1, p.2))
  | fuel + 1, 3 :: k :: rest => (parseVL fuel k rest).map (fun p => (.arr p.1, p.2))
  | fuel + 1, 4 :: k :: rest => (parseFL fuel k rest).map (fun p => (.obj p.1, p.2))
  | _ + 1, _ => none

/-- Fuelled decoder for a counted sequence of serialized values. -/
def parseVL : Nat → Nat → List Nat → Option (ValueList × List Nat)
  | _, 0, input => some (.nil, input)
  | 0, _ + 1, _ => none
  | fuel + 1, k + 1, input =>
      match parseV fuel input with
      | some (v, r) => (parseVL fuel k r).map (fun p => (.cons v p.1, p.2))
      | none => none

/-- Fuelled decoder for a counted sequence of serialized object fields. -/
def parseFL : Nat → Nat → List Nat → Option (FieldList × List Nat)
  | _, 0, input => some (.fnil, input)
  | 0, _ + 1, _ => none
  | fuel + 1, k + 1, input =>
      match readBlk input with
      | some (key, r1) =>
        match parseV fuel r1 with
        | some (v, r2) => (parseFL fuel k r2).map (fun p => (.fcons key v p.1, p.2))
        | none => none
      | none => none

end

mutual

/-- Node count of a value: fuel measure for the decoder. -/
def sizeV : Value → Nat
  | .nat _ => 1
  | .bool _ => 1
  | .bytes _ => 1
  | .arr vs => sizeVL vs + 1
  | .obj fs => sizeFL fs + 1

def sizeVL : ValueList → Nat
  | .nil => 0
  | .cons v vs => sizeV v + sizeVL vs + 1

def sizeFL : FieldList → Nat
  | .fnil => 0
  | .fcons _ v fs => sizeV v + sizeFL fs + 1

end

mutual

theorem sizeV_lt_length : ∀ v : Value, sizeV v < (msgpackV v).length
  | .nat _ => by simp [sizeV, msgpackV]
  | .bool _ => by simp [sizeV, msgpackV]
  | .bytes _ => by simp [sizeV, msgpackV, blk]
  | .arr vs => by
      have h := sizeVL_le_length vs
      simp [sizeV, msgpackV]
      omega
  | .obj fs => by
      have h := sizeFL_le_length fs
      simp [sizeV, msgpackV]
      omega

theorem sizeVL_le_length : ∀ vs : ValueList, sizeVL vs ≤ (msgpackVL vs).length
  | .nil => by simp [sizeVL, msgpackVL]
  | .cons v vs => by
      have h1 := sizeV_lt_length v
      have h2 := sizeVL_le_length vs
      simp [sizeVL, msgpackVL]
      omega

theorem sizeFL_le_length : ∀ fs : FieldList, sizeFL fs ≤ (msgpackFL fs).length
  | .fnil => by simp [sizeFL, msgpackFL]
  | .fcons k v fs => by
      have h1 := sizeV_lt_length v
      have h2 := sizeFL_le_length fs
      simp [sizeFL, msgpackFL, blk]
      omega

end

/-- Decoder correctness, stated as one fuel-indexed invariant for the three
mutually recursive parsers. -/
theorem parse_correct : ∀ F : Nat,
    (∀ (v : Value) (rest : List Nat), sizeV v ≤ F →
      parseV F (msgpackV v ++ rest) = some (v, rest)) ∧
    (∀ (vs : ValueList) (rest : List Nat), sizeVL vs ≤ F →
      parseVL F (vlen vs) (msgpackVL vs ++ rest) = some (vs, rest)) ∧
    (∀ (fs : FieldList) (rest : List Nat), sizeFL fs ≤ F →
      parseFL F (flen fs) (msgpackFL fs ++ rest) = some (fs, rest)) := by
  intro F
  induction F with
  | zero =>
    refine ⟨?_, ?_, ?_⟩
    · intro v rest h
      cases v <;> simp [sizeV] at h
    · intro vs rest h
      cases vs with
      | nil => simp [vlen, msgpackVL, parseVL]
      | cons v vs => simp [sizeVL] at h
    · intro fs rest h
      cases fs with
      | fnil => simp [flen, msgpackFL, parseFL]
      | fcons k v fs => simp [sizeFL] at h
  | succ F ih =>
    obtain ⟨ihV, ihVL, ihFL⟩ := ih
    refine ⟨?_, ?_, ?_⟩
    · intro v rest h
      cases v with
      | nat n => simp [msgpackV, parseV]
      | bool b => cases b <;> simp [msgpackV, parseV]
      | bytes bs => simp [msgpackV, parseV, readBlk_blk]
      | arr vs =>
        have hs : sizeVL vs ≤ F := by simp [sizeV] at h; omega
        simp [msgpackV, parseV, ihVL vs rest hs]
      | obj fs =>
        have hs : sizeFL fs ≤ F := by simp [sizeV] at h; omega
        simp [msgpackV, parseV, ihFL fs rest hs]
    · intro vs rest h
      cases vs with
      | nil => simp [vlen, msgpackVL, parseVL]
      | cons v vs =>
        have hv : sizeV v ≤ F := by simp [sizeVL] at h; omega
        have hvs : sizeVL vs ≤ F := by simp [sizeVL] at h; omega
        simp [vlen, msgpackVL, parseVL, List.append_assoc, ihV v _ hv, ihVL vs rest hvs]
    · intro fs rest h
      cases fs with
      | fnil => simp [flen, msgpackFL, parseFL]
      | fcons k v fs =>
        have hv : sizeV v ≤ F := by simp [sizeFL] at h; omega
        have hfs : sizeFL fs ≤ F := by simp [sizeFL] at h; omega
        simp [flen, msgpackFL, parseFL, List.append_assoc, readBlk_blk, ihV v _ hv,
          ihFL fs rest hfs]

/-- Model of `msgunpack` (the `msgpackr` decoder): succeeds only when the
whole input is one well-formed serialized value. -/
def msgunpack (bs : List Nat) : Option Value :=
  match parseV bs.length bs with
  | some (v, []) => some v
  | _ => none

theorem msgunpack_msgpackV (v : Value) : msgunpack (msgpackV v) = some v := by
  have h := ((parse_correct (msgpackV v).length).1 v [] (le_of_lt (sizeV_lt_length v)))
  simp at h
  simp [msgunpack, h]

/-! ## Symbolic cryptographic primitives

The source calls external, well-studied primitives.  Each is modelled as a
computable function satisfying precisely the contract the source relies
on; none of the claims depend on the concrete byte patterns chosen here. -/

/-- `tweetnacl.secretbox.nonceLength` (XSalsa20-Poly1305 nonces are 24
bytes). -/
def naclNonceLength : Nat := 24

/-- Symbolic model of `tweetnacl.secretbox` (authenticated symmetric
encryption): the ciphertext determines the plaintext together with the
nonce and key it was sealed under. -/
def secretbox (m nonce key : List Nat) : List Nat := blk m ++ blk nonce ++ blk key

/-- Symbolic model of `tweetnacl.secretbox.open`: authenticated decryption
succeeds, returning the original plaintext, exactly when the ciphertext was
produced under the same nonce and key; otherwise it returns `none`
(`null` in JavaScript). -/
def secretboxOpen (c nonce key : List Nat) : Option (List Nat) :=
  match readBlk c with
  | some (m, r1) =>
    match readBlk r1 with
    | some (n', r2) =>
      match readBlk r2 with
      | some (k', r3) =>
        if r3 = [] ∧ n' = nonce ∧ k' = key then some m else none
      | none => none
    | none => none
  | none => none

theorem secretboxOpen_secretbox (m nonce key : List Nat) :
    secretboxOpen (secretbox m nonce key) nonce key = some m := by
  have h1 := readBlk_blk m (blk nonce ++ blk key)
  have h2 := readBlk_blk nonce (blk key)
  have h3 : readBlk (blk key ++ []) = some (key, []) := readBlk_blk key []
  simp at h3
  simp [secretbox, secretboxOpen, h1, h2, h3]

theorem secretboxOpen_wrong_key (m nonce key key' : List Nat) (h : key' ≠ key) :
    secretboxOpen (secretbox m nonce key) nonce key' = none := by
  have h1 := readBlk_blk m (blk nonce ++ blk key)
  have h2 := readBlk_blk nonce (blk key)
  have h3 : readBlk (blk key ++ []) = some (key, []) := readBlk_blk key []
  simp at h3
  simp [secretbox, secretboxOpen, h1, h2, h3]
  intro hk
  exact absurd hk.symm h

/-- Symbolic model of `easyHash` (SHA3-512 digest of a byte buffer,
src/index.js lines 30-34): injective, reflecting collision-freeness of the
digest on the inputs involved; the fixed output width is not modelled. -/
def easyHash (buf : List Nat) : List Nat := buf.length :: buf

theorem easyHash_injective : Function.Injective easyHash := by
  intro a b h
  simp [easyHash] at h
  exact h.2

/-- `readUint32LE` applied to the 4 random bytes drawn by `randUint32`
(src/index.js lines 36-39). -/
def randUint32 (bytes : List Nat) : Nat :=
  bytes.getD 0 0 + bytes.getD 1 0 * 256 + bytes.getD 2 0 * 65536 +
    bytes.getD 3 0 * 16777216

/-- Symbolic model of the wallet signature oracle
(`signer.signMessage`): an opaque function of the signed text. -/
def walletSign (msg : List Nat) : List Nat := 83 :: msg

/-- Symbolic model of Curve25519 public-key derivation
(`tweetnacl.box.keyPair.fromSecretKey(sk).publicKey`). -/
def naclBoxPub (sk : List Nat) : List Nat := 88 :: sk

/-- Symbolic model of `base85.encode(_, 'z85')`: an injective text
encoding of a byte string. -/
def z85encode (bs : List Nat) : List Nat := blk bs

/-- Symbolic model of `base85.decode(_, 'z85')`, the inverse of
`z85encode` on its range. -/
def z85decode (xs : List Nat) : List Nat :=
  match readBlk xs with
  | some (bs, []) => bs
  | _ => []

theorem z85decode_z85encode (bs : List Nat) : z85decode (z85encode bs) = bs := by
  have h : readBlk (blk bs ++ []) = some (bs, []) := readBlk_blk bs []
  simp at h
  simp [z85decode, z85encode, h]

/-- The three named pieces the wallet ECIES API exchanges alongside the
one-byte version tag. -/
structure EciesBlob where
  ciphertext : List Nat
  nonce : List Nat
  ephemPublicKey : List Nat

/-- Symbolic model of `encryptForWallet` (`@metamask/eth-sig-util`
`encrypt`, variant x25519-xsalsa20-poly1305): the ciphertext binds the
recipient public key and the plaintext. -/
def eciesEncrypt (pub data : List Nat) : EciesBlob :=
  { ciphertext := blk pub ++ blk data, nonce := [0], ephemPublicKey := [1] }

/-- Symbolic model of the wallet `eth_decrypt` capability: recovers the
plaintext of an `eciesEncrypt` blob addressed to this wallet, failing on
anything else. -/
def ethDecrypt (pub ct : List Nat) : Option (List Nat) :=
  match readBlk ct with
  | some (p, r) =>
    match readBlk r with
    | some (d, r2) => if r2 = [] ∧ p = pub then some d else none
    | none => none
  | none => none

/-! ## Protocol constants (src/index.js lines 12-24) -/

def STATE_AWAITING_CHALLENGE : Nat := 0
def STATE_AWAITING_RESPONSE : Nat := 1
def STATE_AWAITING_WELCOME : Nat := 2
def STATE_FULLY_AUTHENTICATED : Nat := 3

def REQ_KEY_GET : Nat := 0x11
def REQ_KEY_SET : Nat := 0x1A
def REQ_KEY_DEL : Nat := 0x1B
def REQ_ROW_GET : Nat := 0x21
def REQ_ROW_UPDATES : Nat := 0x22
def REQ_ROW_UPSERT : Nat := 0x2A
def REQ_ROW_DELETE : Nat := 0x2B

/-- The fixed challenge prefix string (`MESSAGE_PREFIX of src/index.js`), as its byte
sequence. -/
def MESSAGE_PREFIX_BYTES : List Nat :=
  ("This is a randomly generated string used to challenge your wallet to prove its ownership of EDS resources, do not worry: ".data.map Char.toNat)

/-! ## Message field names, as the byte strings of the property names -/

def fChallengeBuffer : List Nat := "ChallengeBuffer".data.map Char.toNat
def fAddress : List Nat := "Address".data.map Char.toNat
def fSignature : List Nat := "Signature".data.map Char.toNat
def fPKHash : List Nat := "PKHash".data.map Char.toNat
def fKeyFound : List Nat := "KeyFound".data.map Char.toNat
def fEncryptedPrivateKey : List Nat := "EncryptedPrivateKey".data.map Char.toNat
def fID : List Nat := "ID".data.map Char.toNat
def fExists : List Nat := "Exists".data.map Char.toNat
def fData : List Nat := "Data".data.map Char.toNat
def fRows : List Nat := "Rows".data.map Char.toNat
def fKey : List Nat := "Key".data.map Char.toNat
def fKeyHash : List Nat := "KeyHash".data.map Char.toNat
def fValue : List Nat := "Value".data.map Char.toNat
def fSince : List Nat := "Since".data.map Char.toNat

/-! ## JavaScript object access and truthiness over the value universe -/

def flLookup : FieldList → List Nat → Option Value
  | .fnil, _ => none
  | .fcons k v rest, name => if k = name then some v else flLookup rest name

/-- JavaScript property access `data.Name` on a decoded value: defined on
objects, `undefined` (`none`) elsewhere. -/
def getField (v : Value) (name : List Nat) : Option Value :=
  match v with
  | .obj fs => flLookup fs name
  | _ => none

/-- JavaScript truthiness of a decoded value (the number 0 is falsy;
buffers, arrays and objects are always truthy). -/
def truthyV : Value → Bool
  | .nat n => n != 0
  | .bool b => b
  | .bytes _ => true
  | .arr _ => true
  | .obj _ => true

/-- Truthiness of a possibly absent value (`undefined` is falsy). -/
def truthy : Option Value → Bool
  | none => false
  | some v => truthyV v

/-- Symbolic model of the JavaScript string coercion in
`MESSAGE_PREFIX + data.ChallengeBuffer`; its content is only ever fed to
the signature oracle. -/
def jsToString : Option Value → List Nat
  | none => [117]
  | some v => msgpackV v

/-- Conversion of an array value to a Lean list for iteration. -/
def toListV : ValueList → List Value
  | .nil => []
  | .cons v vs => v :: toListV vs

/-! ## The `IDToResolver` map (a JavaScript `Map` keyed by request ID;
resolvers are abstract tags) -/

def mapGet : List (Nat × Nat) → Nat → Option Nat
  | [], _ => none
  | (k, v) :: rest, id => if k = id then some v else mapGet rest id

def mapSet : List (Nat × Nat) → Nat → Nat → List (Nat × Nat)
  | [], id, tag => [(id, tag)]
  | (k, v) :: rest, id, tag =>
      if k = id then (k, tag) :: rest else (k, v) :: mapSet rest id tag

def mapDelete : List (Nat × Nat) → Nat → List (Nat × Nat)
  | [], _ => []
  | (k, v) :: rest, id =>
      if k = id then mapDelete rest id else (k, v) :: mapDelete rest id

/-! ## The session state: the mutable fields of `EncryptedDatabase` -/

structure EDSState where
  state : Nat
  IDToResolver : List (Nat × Nat)
  wsSerial : Nat
  writeLockLocked : Bool
  onInitializedSet : Bool
  privateKey : List Nat
  publicKey : List Nat
  walletPubKey : List Nat
  walletPKHash : List Nat
  addressBytes : List Nat

/-- Observable side effects of the session methods, in program order. -/
inductive Event where
  | sendControl : Value → Event
  | sendTyped : Nat → Value → Event
  | writeGateOpen : Event
  | writeGateClose : Event
  | logWarn : Event
  | logInfo : Event
  | logSkip : Event
  | initializedCb : Event
  | resolveCb : Nat → Nat → Value → Event
  | wsCloseCall : Event
  | sleepBackoff : Event
  | socketOpen : Nat → Event

/-- External nondeterminism consumed while handling one message: the fresh
secret drawn by `tweetnacl.box.keyPair()` in the key-not-found branch. -/
structure Env where
  genSecret : List Nat

/-- `waitForReply` (src/index.js lines 127-131): register a resolver for a
request ID. -/
def waitForReply (st : EDSState) (id tag : Nat) : EDSState :=
  { st with IDToResolver := mapSet st.IDToResolver id tag }

/-- One step of `handleMessage` (src/index.js lines 142-214) on an already
deserialized inbound payload.  Thrown JavaScript exceptions (such as
deserializing a malformed key blob, or a wallet decryption rejection) are
`Except.error`. -/
def handleMessage (st : EDSState) (env : Env) (data : Value) :
    Except Unit (EDSState × List Event) :=
  if st.state = STATE_AWAITING_CHALLENGE then
    let sig := walletSign (MESSAGE_PREFIX_BYTES ++ jsToString (getField data fChallengeBuffer))
    .ok ({ st with state := STATE_AWAITING_RESPONSE },
      [.sendControl (.obj (.fcons fAddress (.bytes st.addressBytes)
        (.fcons fSignature (.bytes sig)
        (.fcons fPKHash (.bytes st.walletPKHash) .fnil))))])
  else if st.state = STATE_AWAITING_RESPONSE then
    if truthy (getField data fKeyFound) then
      match getField data fEncryptedPrivateKey with
      | some (.bytes keyBuf) =>
        match msgunpack keyBuf with
        | some (.arr (.cons (.nat ver) (.cons (.bytes ct) (.cons (.bytes _n)
            (.cons (.bytes _e) .nil))))) =>
          if ver = 0x81 then
            match ethDecrypt st.walletPubKey ct with
            | some privateKey85 =>
              let pk := z85decode privateKey85
              .ok ({ st with
                      privateKey := pk
                      publicKey := naclBoxPub pk
                      state := STATE_AWAITING_WELCOME }, [])
            | none => .error ()
          else .error ()
        | _ => .error ()
      | _ => .error ()
    else
      let pub := naclBoxPub env.genSecret
      let encECIES := eciesEncrypt st.walletPubKey (z85encode env.genSecret)
      let encPrivateKey := msgpackV (.arr (.cons (.nat 0x81)
        (.cons (.bytes encECIES.ciphertext)
        (.cons (.bytes encECIES.nonce)
        (.cons (.bytes encECIES.ephemPublicKey) .nil)))))
      .ok ({ st with
              privateKey := env.genSecret
              publicKey := pub
              state := STATE_AWAITING_WELCOME },
        [.sendControl (.bytes encPrivateKey)])
  else if st.state = STATE_AWAITING_WELCOME then
    let initEvents := if st.onInitializedSet then [Event.initializedCb] else []
    .ok ({ st with
            state := STATE_FULLY_AUTHENTICATED
            onInitializedSet := false
            writeLockLocked := false },
      .logInfo :: initEvents ++ [.writeGateOpen])
  else if st.state = STATE_FULLY_AUTHENTICATED then
    if truthy (getField data fID) then
      match getField data fID with
      | some (.nat n) =>
        match mapGet st.IDToResolver n with
        | some tag =>
            .ok ({ st with IDToResolver := mapDelete st.IDToResolver n },
              [.resolveCb n tag data])
        | none => .ok (st, [])
      | _ => .ok (st, [])
    else
      .ok (st, [.logWarn])
  else
    .ok (st, [.logWarn])

/-- Run `handleMessage` over a sequence of inbound messages, collecting
the trace; a thrown handler leaves the state as it was. -/
def runMessages (st : EDSState) (steps : List (Env × Value)) : EDSState × List Event :=
  match steps with
  | [] => (st, [])
  | (env, m) :: rest =>
    match handleMessage st env m with
    | .ok (st', evs) =>
      let r := runMessages st' rest
      (r.1, evs ++ r.2)
    | .error _ => runMessages st rest

/-- `encryptData` (src/index.js lines 227-232): serialize, seal under a
fresh random nonce with the session private key, and prepend the nonce.
The nonce drawn from `randomBytes(nonceLength)` is passed explicitly. -/
def encryptData (privateKey nonce : List Nat) (data : Value) : List Nat :=
  nonce ++ secretbox (msgpackV data) nonce privateKey

/-- `decryptDataResponse` (src/index.js lines 216-225) applied to the
correlated reply: a falsy `Exists` returns `undefined` (`none`); otherwise
the nonce prefix is stripped and authenticated decryption attempted.  A
failed decryption feeds `null` to `msgunpack`, which throws a TypeError:
`Except.error`. -/
def decryptDataResponse (privateKey : List Nat) (reply : Value) :
    Except Unit (Option Value) :=
  if truthy (getField reply fExists) = false then .ok none
  else
    match getField reply fData with
    | some (.bytes d) =>
      match secretboxOpen (d.drop naclNonceLength) (d.take naclNonceLength)
          privateKey with
      | none => .error ()
      | some plain =>
        match msgunpack plain with
        | some v => .ok (some v)
        | none => .error ()
    | _ => .error ()

/-- The row post-processing of `getRowsUpdatedSince` (src/index.js lines
287-304): each row's `Data` envelope is opened; a row that fails
authenticated decryption is logged and mapped to `null`, and the `null`
entries are filtered out of the returned array. -/
def processRows (privateKey : List Nat) (rows : List Value) :
    Except Unit (List Value × List Event) :=
  match rows with
  | [] => .ok ([], [])
  | row :: rest =>
    match getField row fData with
    | some (.bytes d) =>
      match secretboxOpen (d.drop naclNonceLength) (d.take naclNonceLength)
          privateKey with
      | none => (processRows privateKey rest).map (fun p => (p.1, Event.logWarn :: p.2))
      | some plain =>
        match msgunpack plain with
        | some v => (processRows privateKey rest).map (fun p => (v :: p.1, p.2))
        | none => .error ()
    | _ => .error ()

/-- The reply handling of `getRowsUpdatedSince`: destructure `Rows` from
the correlated reply and post-process the rows. -/
def getRowsUpdatedSinceReply (privateKey : List Nat) (reply : Value) :
    Except Unit (List Value × List Event) :=
  match getField reply fRows with
  | some (.arr vl) => processRows privateKey (toListV vl)
  | _ => .error ()

/-! ## Connection lifecycle (src/index.js lines 79-112) -/

/-- `initializeSocket`: advance the epoch, reset the auth state machine
and open a fresh transport whose lifecycle callbacks carry the new
epoch. -/
def initializeSocket (st : EDSState) : EDSState × List Event :=
  ({ st with wsSerial := st.wsSerial + 1, state := STATE_AWAITING_CHALLENGE },
    [.socketOpen (st.wsSerial + 1)])

/-- The close/error event together with the transport snapshot the
callback reads (`'code' in ev`, `ev.code`, and whether `ws.readyState` is
CONNECTING or OPEN). -/
structure CloseEv where
  hasCode : Bool
  code : Nat
  readyConnOrOpen : Bool

/-- The callback built by `getCloseCb(wsSerial)` (src/index.js lines
91-112), applied to the session state at firing time. -/
def getCloseCb (wsSerial : Nat) (st : EDSState) (ev : CloseEv) :
    EDSState × List Event :=
  if st.wsSerial ≠ wsSerial then (st, [.logSkip])
  else if ev.hasCode ∧ ev.code = 4242 then (st, [])
  else
    let closeEvents := if ev.readyConnOrOpen then [Event.wsCloseCall] else []
    let st1 := { st with wsSerial := st.wsSerial + 1 }
    let acquired :=
      if st1.writeLockLocked = false then
        ({ st1 with writeLockLocked := true }, [Event.writeGateClose])
      else (st1, ([] : List Event))
    let opened := initializeSocket acquired.1
    (opened.1, closeEvents ++ acquired.2 ++ [.sleepBackoff] ++ opened.2)

/-! ## Identity binding and the typed wire frames -/

/-- The `PKHash` computation in `initialize` (src/index.js lines 68-70):
digest of the wallet public encryption key, namespaced with
`'_' ++ appID` when an appID is supplied (95 is the underscore byte). -/
def computePKHash (pkBytes : List Nat) (appID : Option (List Nat)) : List Nat :=
  easyHash (match appID with
    | none => pkBytes
    | some a => pkBytes ++ (95 :: a))

/-- The frame put on the wire by `sendTypedMessage` (src/index.js lines
114-125): one opcode byte (`Uint8Array` truncates to 8 bits) followed by
the serialized payload. -/
def sendTypedMessageWire (opcode : Nat) (msg : Value) : List Nat :=
  (opcode % 256) :: msgpackV msg

/-- The frame put on the wire by `sendMessage` (src/index.js handshake
control frames): the bare serialized payload, with no opcode byte. -/
def sendMessageWire (msg : Value) : List Nat := msgpackV msg

/-- The request frame sent by `getKey`. -/
def getKeyFrame (key : List Nat) (id : Nat) : List Nat :=
  sendTypedMessageWire REQ_KEY_GET
    (.obj (.fcons fID (.nat id) (.fcons fKey (.bytes (easyHash key)) .fnil)))

/-- The request frame sent by `delKey`. -/
def delKeyFrame (key : List Nat) (id : Nat) : List Nat :=
  sendTypedMessageWire REQ_KEY_DEL
    (.obj (.fcons fID (.nat id) (.fcons fKey (.bytes (easyHash key)) .fnil)))

/-- The request frame sent by `setKey`. -/
def setKeyFrame (privateKey key : List Nat) (value : Value) (id : Nat)
    (nonce : List Nat) : List Nat :=
  sendTypedMessageWire REQ_KEY_SET
    (.obj (.fcons fID (.nat id) (.fcons fKey (.bytes (easyHash key))
      (.fcons fValue (.bytes (encryptData privateKey nonce value)) .fnil))))

/-- The request frame sent by `getRowByKey`. -/
def getRowByKeyFrame (key : Value) (id : Nat) : List Nat :=
  sendTypedMessageWire REQ_ROW_GET
    (.obj (.fcons fID (.nat id)
      (.fcons fKeyHash (.bytes (easyHash (msgpackV key))) .fnil)))

/-- The request frame sent by `delRowByKey`. -/
def delRowByKeyFrame (key : Value) (id : Nat) : List Nat :=
  sendTypedMessageWire REQ_ROW_DELETE
    (.obj (.fcons fID (.nat id)
      (.fcons fKeyHash (.bytes (easyHash (msgpackV key))) .fnil)))

/-- The request frame sent by `getRowsUpdatedSince`. -/
def getRowsUpdatedSinceFrame (time : Value) (id : Nat) : List Nat :=
  sendTypedMessageWire REQ_ROW_UPDATES
    (.obj (.fcons fID (.nat id) (.fcons fSince time .fnil)))

/-- The request frame sent by `upsertRow`. -/
def upsertRowFrame (privateKey : List Nat) (primaryKey row : Value) (id : Nat)
    (nonce : List Nat) : List Nat :=
  sendTypedMessageWire REQ_ROW_UPSERT
    (.obj (.fcons fID (.nat id)
      (.fcons fKeyHash (.bytes (easyHash (msgpackV primaryKey)))
      (.fcons fData (.bytes (encryptData privateKey nonce row)) .fnil))))

/-! ## Trace observation helpers -/

/-- Number of write-gate-open events (`writeLock.release()` calls) in a
trace. -/
def countOpen : List Event → Nat
  | [] => 0
  | .writeGateOpen :: es => countOpen es + 1
  | _ :: es => countOpen es

/-- Whether a trace delivers a reply to a resolver registered under
request ID 0. -/
def resolvesZero : List Event → Bool
  | [] => false
  | .resolveCb 0 _ _ :: _ => true
  | _ :: es => resolvesZero es

/-- Whether a trace contains a reconnect (a fresh transport being
opened). -/
def opensSocket : List Event → Bool
  | [] => false
  | .socketOpen _ :: _ => true
  | _ :: es => opensSocket es

/-! ## Helper lemmas on maps and traces -/

theorem countOpen_append (a b : List Event) :
    countOpen (a ++ b) = countOpen a + countOpen b := by
  induction a with
  | nil => simp [countOpen]
  | cons e rest ih => cases e <;> simp [countOpen, ih] <;> omega

theorem resolvesZero_append (a b : List Event) :
    resolvesZero (a ++ b) = (resolvesZero a || resolvesZero b) := by
  induction a with
  | nil => simp [resolvesZero]
  | cons e rest ih =>
    cases e with
    | resolveCb n tag v => cases n <;> simp [resolvesZero, ih]
    | _ => simp [resolvesZero, ih]

theorem mapGet_mapSet (m : List (Nat × Nat)) (id tag : Nat) :
    mapGet (mapSet m id tag) id = some tag := by
  induction m with
  | nil => simp [mapSet, mapGet]
  | cons p rest ih =>
    by_cases h : p.1 = id
    · simp [mapSet, mapGet, h]
    · simp [mapSet, mapGet, h, ih]

theorem mapGet_mapDelete (m : List (Nat × Nat)) (id : Nat) :
    mapGet (mapDelete m id) id = none := by
  induction m with
  | nil => simp [mapDelete, mapGet]
  | cons p rest ih =>
    by_cases h : p.1 = id
    · simp [mapDelete, h, ih]
    · simp [mapDelete, mapGet, h, ih]

theorem mapGet_mapDelete_ne (m : List (Nat × Nat)) (id k : Nat) (h : k ≠ id) :
    mapGet (mapDelete m id) k = mapGet m k := by
  induction m with
  | nil => simp [mapDelete]
  | cons p rest ih =>
    obtain ⟨a, b⟩ := p
    by_cases hp : a = id
    · simp [mapDelete, mapGet, hp, Ne.symm h, ih]
    · by_cases hk : a = k
      · simp [mapDelete, mapGet, hp, hk, h]
      · simp [mapDelete, mapGet, hp, hk, ih]

/-! ## Helper lemmas on the handshake steps -/

theorem handleMessage_challenge (st : EDSState) (env : Env) (m : Value)
    (h : st.state = STATE_AWAITING_CHALLENGE) :
    handleMessage st env m =
      .ok ({ st with state := STATE_AWAITING_RESPONSE },
        [.sendControl (.obj (.fcons fAddress (.bytes st.addressBytes)
          (.fcons fSignature (.bytes (walletSign (MESSAGE_PREFIX_BYTES ++
            jsToString (getField m fChallengeBuffer))))
          (.fcons fPKHash (.bytes st.walletPKHash) .fnil))))]) := by
  simp [handleMessage, h]

theorem handleMessage_welcome (st : EDSState) (env : Env) (m : Value)
    (h : st.state = STATE_AWAITING_WELCOME) :
    handleMessage st env m =
      .ok ({ st with
              state := STATE_FULLY_AUTHENTICATED
              onInitializedSet := false
              writeLockLocked := false },
        Event.logInfo :: (if st.onInitializedSet then [Event.initializedCb] else [])
          ++ [Event.writeGateOpen]) := by
  simp [handleMessage, h, STATE_AWAITING_WELCOME, STATE_AWAITING_CHALLENGE,
    STATE_AWAITING_RESPONSE]

theorem response_step (st : EDSState) (env : Env) (m : Value) (post : EDSState)
    (evs : List Event) (h : st.state = STATE_AWAITING_RESPONSE)
    (hok : handleMessage st env m = .ok (post, evs)) :
    post.state = STATE_AWAITING_WELCOME ∧ countOpen evs = 0 ∧
      post.IDToResolver = st.IDToResolver ∧ resolvesZero evs = false := by
  have h0 : ¬ st.state = STATE_AWAITING_CHALLENGE := by
    rw [h]; decide
  unfold handleMessage at hok
  rw [if_neg h0, if_pos h] at hok
  split at hok
  · split at hok
    · split at hok
      · split at hok
        · split at hok
          · simp only [Except.ok.injEq, Prod.mk.injEq] at hok
            obtain ⟨hpost, hevs⟩ := hok
            subst hpost
            subst hevs
            simp [countOpen, resolvesZero]
          · simp at hok
        · simp at hok
      · simp at hok
    · simp at hok
  · simp only [Except.ok.injEq, Prod.mk.injEq] at hok
    obtain ⟨hpost, hevs⟩ := hok
    subst hpost
    subst hevs
    simp [countOpen, resolvesZero]

/-! ## Concrete example fixtures used by witnesses and counterexamples -/

/-- A concrete session state with the given auth state. -/
def exState (s : Nat) : EDSState :=
  { state := s
    IDToResolver := []
    wsSerial := 1
    writeLockLocked := true
    onInitializedSet := true
    privateKey := [9]
    publicKey := [8]
    walletPubKey := [3]
    walletPKHash := [4]
    addressBytes := [5] }

/-- A concrete environment (the fresh keypair secret). -/
def exEnv : Env := { genSecret := [7] }

/-- A concrete 24-byte nonce. -/
def nonce24 : List Nat := List.replicate 24 0

/-! ## Claim C7 -/

/-- Claim C7: for a fixed wallet public key the derived PKHash differs for
any two distinct appID values, and it equals digest(walletPublicKey) when
the appID is null and digest(walletPublicKey ++ underscore ++ appID)
otherwise (the digest model is injective on the inputs involved). -/
theorem identityC7 (pk : List Nat) (a1 a2 : Option (List Nat)) (h : a1 ≠ a2) :
    computePKHash pk a1 ≠ computePKHash pk a2 ∧
    computePKHash pk none = easyHash pk ∧
    (∀ a : List Nat, computePKHash pk (some a) = easyHash (pk ++ (95 :: a))) := by
  refine ⟨?_, rfl, fun a => rfl⟩
  intro he
  apply h
  cases a1 with
  | none =>
    cases a2 with
    | none => rfl
    | some b =>
      exfalso
      have h2 : pk = pk ++ (95 :: b) := easyHash_injective he
      have hl := congrArg List.length h2
      simp at hl
  | some a =>
    cases a2 with
    | none =>
      exfalso
      have h2 : pk ++ (95 :: a) = pk := easyHash_injective he
      have hl := congrArg List.length h2
      simp at hl
    | some b =>
      have h2 : pk ++ (95 :: a) = pk ++ (95 :: b) := easyHash_injective he
      simp at h2
      rw [h2]

/-- Witness for C7: the null appID and the empty-string appID give
different PKHashes for the same wallet public key. -/
theorem identityC7_witness :
    computePKHash [3] none ≠ computePKHash [3] (some []) :=
  (identityC7 [3] none (some []) (by decide)).1

/-! ## Claim C6 -/

/-- Claim C6: for every payload and key, symmetric decryption (with the
same key) of the envelope produced by symmetric encryption returns the
payload; the envelope is nonce-prefix followed by ciphertext where the
nonce has the primitive's fixed length and is consumed by stripping that
prefix. -/
theorem cryptoC6 (m : Value) (key nonce : List Nat)
    (h : nonce.length = naclNonceLength) :
    encryptData key nonce m = nonce ++ secretbox (msgpackV m) nonce key ∧
    (encryptData key nonce m).take naclNonceLength = nonce ∧
    (encryptData key nonce m).drop naclNonceLength =
      secretbox (msgpackV m) nonce key ∧
    decryptDataResponse key (.obj (.fcons fExists (.bool true)
      (.fcons fData (.bytes (encryptData key nonce m)) .fnil))) =
      .ok (some m) := by
  have htake : (encryptData key nonce m).take naclNonceLength = nonce := by
    rw [encryptData, ← h, take_append_length]
  have hdrop : (encryptData key nonce m).drop naclNonceLength =
      secretbox (msgpackV m) nonce key := by
    rw [encryptData, ← h, drop_append_length]
  refine ⟨rfl, htake, hdrop, ?_⟩
  have hE : getField (Value.obj (.fcons fExists (.bool true)
      (.fcons fData (.bytes (encryptData key nonce m)) .fnil))) fExists =
      some (.bool true) := rfl
  have hD : getField (Value.obj (.fcons fExists (.bool true)
      (.fcons fData (.bytes (encryptData key nonce m)) .fnil))) fData =
      some (.bytes (encryptData key nonce m)) := rfl
  simp [decryptDataResponse, hE, hD, hdrop, htake, secretboxOpen_secretbox,
    msgunpack_msgpackV, truthy, truthyV]

/-- Witness for C6 at a concrete payload, key and 24-byte nonce. -/
theorem cryptoC6_witness :
    nonce24.length = naclNonceLength ∧
    decryptDataResponse [1, 2] (.obj (.fcons fExists (.bool true)
      (.fcons fData (.bytes (encryptData [1, 2] nonce24 (.nat 5))) .fnil))) =
      .ok (some (.nat 5)) :=
  ⟨by decide, (cryptoC6 (.nat 5) [1, 2] nonce24 (by decide)).2.2.2⟩

/-! ## Claim C9 -/

/-- Claim C9: every typed request frame is exactly one opcode byte
followed by the serialized payload, with opcodes GetKey 0x11, SetKey 0x1A,
DeleteKey 0x1B, GetRow 0x21, RowsUpdatedSince 0x22, UpsertRow 0x2A,
DeleteRow 0x2B for the corresponding public operations; handshake control
frames carry the bare serialized payload with no opcode byte. -/
theorem wireC9 (key : List Nat) (rowKey value time row ctrl : Value)
    (privateKey nonce : List Nat) (id : Nat) :
    getKeyFrame key id = 0x11 :: msgpackV (.obj (.fcons fID (.nat id)
      (.fcons fKey (.bytes (easyHash key)) .fnil))) ∧
    setKeyFrame privateKey key value id nonce = 0x1A ::
      msgpackV (.obj (.fcons fID (.nat id) (.fcons fKey (.bytes (easyHash key))
        (.fcons fValue (.bytes (encryptData privateKey nonce value)) .fnil)))) ∧
    delKeyFrame key id = 0x1B :: msgpackV (.obj (.fcons fID (.nat id)
      (.fcons fKey (.bytes (easyHash key)) .fnil))) ∧
    getRowByKeyFrame rowKey id = 0x21 :: msgpackV (.obj (.fcons fID (.nat id)
      (.fcons fKeyHash (.bytes (easyHash (msgpackV rowKey))) .fnil))) ∧
    getRowsUpdatedSinceFrame time id = 0x22 :: msgpackV (.obj
      (.fcons fID (.nat id) (.fcons fSince time .fnil))) ∧
    upsertRowFrame privateKey rowKey row id nonce = 0x2A ::
      msgpackV (.obj (.fcons fID (.nat id)
        (.fcons fKeyHash (.bytes (easyHash (msgpackV rowKey)))
        (.fcons fData (.bytes (encryptData privateKey nonce row)) .fnil)))) ∧
    delRowByKeyFrame rowKey id = 0x2B :: msgpackV (.obj (.fcons fID (.nat id)
      (.fcons fKeyHash (.bytes (easyHash (msgpackV rowKey))) .fnil))) ∧
    REQ_KEY_GET = 0x11 ∧ REQ_KEY_SET = 0x1A ∧ REQ_KEY_DEL = 0x1B ∧
    REQ_ROW_GET = 0x21 ∧ REQ_ROW_UPDATES = 0x22 ∧ REQ_ROW_UPSERT = 0x2A ∧
    REQ_ROW_DELETE = 0x2B ∧
    sendMessageWire ctrl = msgpackV ctrl :=
  ⟨rfl, rfl, rfl, rfl, rfl, rfl, rfl, rfl, rfl, rfl, rfl, rfl, rfl, rfl, rfl⟩

/-! ## Claim C4 -/

/-- Claim C4: a close/error callback tagged with a stale epoch is a no-op
(same state, no reconnect, no epoch change, no write-gate change); only a
callback whose tag equals the current epoch can open a fresh transport;
and the epoch counter never decreases, strictly increasing on every
transport open. -/
theorem connectionC4 (tag : Nat) (st : EDSState) (ev : CloseEv) :
    (tag ≠ st.wsSerial → getCloseCb tag st ev = (st, [.logSkip])) ∧
    (opensSocket (getCloseCb tag st ev).2 = true → tag = st.wsSerial) ∧
    st.wsSerial ≤ (getCloseCb tag st ev).1.wsSerial ∧
    st.wsSerial < (initializeSocket st).1.wsSerial := by
  have hskip : tag ≠ st.wsSerial → getCloseCb tag st ev = (st, [.logSkip]) := by
    intro hne
    rw [getCloseCb, if_pos (Ne.symm hne)]
  refine ⟨hskip, ?_, ?_, ?_⟩
  · intro hso
    by_contra hne
    rw [hskip hne] at hso
    simp [opensSocket] at hso
  · simp only [getCloseCb, initializeSocket]
    split_ifs <;> (try simp) <;> omega
  · simp [initializeSocket]

/-- Witness for C4: a callback tagged with epoch 1 firing when the
current epoch is 2 leaves the state untouched. -/
theorem connectionC4_witness :
    getCloseCb 1 { exState STATE_FULLY_AUTHENTICATED with wsSerial := 2 }
        { hasCode := false, code := 0, readyConnOrOpen := true } =
      ({ exState STATE_FULLY_AUTHENTICATED with wsSerial := 2 },
        [Event.logSkip]) :=
  (connectionC4 1 { exState STATE_FULLY_AUTHENTICATED with wsSerial := 2 }
    { hasCode := false, code := 0, readyConnOrOpen := true }).1 (by decide)

/-! ## Claim C2 -/

/-- Counterexample to C2: in AwaitingChallenge a message carrying no
ChallengeBuffer field (the empty object) is not discarded — the handler
signs the coerced undefined value and transitions to AwaitingResponse, so
the AuthState after the message differs from the AuthState before. -/
theorem authC2_counterexample :
    (handleMessage (exState STATE_AWAITING_CHALLENGE) exEnv (.obj .fnil)).map
        (fun p => p.1.state) = .ok STATE_AWAITING_RESPONSE ∧
    STATE_AWAITING_RESPONSE ≠ STATE_AWAITING_CHALLENGE :=
  ⟨rfl, by decide⟩

/-- Claim C2 (amended): only in the Authenticated state is a message that
does not match the expected shape discarded with no state transition — a
reply with an absent or zero ID is logged and discarded, and a reply whose
ID has no registered resolver is silently discarded, the whole session
state unchanged.  In the handshake states no arriving message is ever
discarded with the state left unchanged by a completed handler step: in
AwaitingChallenge and AwaitingWelcome any message at all, well-formed or
not, causes the state transition; in AwaitingResponse every message the
handler completes on causes the state transition, the only other outcome
being a thrown error (for instance a truthy KeyFound with a missing key
blob), which aborts the handler. -/
theorem authC2_amended :
    (∀ (st : EDSState) (env : Env) (m : Value),
      st.state = STATE_FULLY_AUTHENTICATED →
      (getField m fID = none ∨ getField m fID = some (.nat 0) ∨
        (∃ n, getField m fID = some (.nat n) ∧ mapGet st.IDToResolver n = none)) →
      ∃ evs, handleMessage st env m = .ok (st, evs)) ∧
    (∀ (st : EDSState) (env : Env) (m : Value),
      st.state = STATE_AWAITING_CHALLENGE →
      ∃ post evs, handleMessage st env m = .ok (post, evs) ∧
        post.state = STATE_AWAITING_RESPONSE) ∧
    (∀ (st : EDSState) (env : Env) (m : Value) (post : EDSState)
        (evs : List Event),
      st.state = STATE_AWAITING_RESPONSE →
      handleMessage st env m = .ok (post, evs) →
      post.state = STATE_AWAITING_WELCOME) ∧
    (∀ (st : EDSState) (env : Env) (m : Value),
      st.state = STATE_AWAITING_RESPONSE →
      truthy (getField m fKeyFound) = true →
      getField m fEncryptedPrivateKey = none →
      handleMessage st env m = .error ()) ∧
    (∀ (st : EDSState) (env : Env) (m : Value),
      st.state = STATE_AWAITING_WELCOME →
      ∃ post evs, handleMessage st env m = .ok (post, evs) ∧
        post.state = STATE_FULLY_AUTHENTICATED) := by
  refine ⟨?_, ?_, ?_, ?_, ?_⟩
  · intro st env m hst hid
    have h0 : ¬ st.state = STATE_AWAITING_CHALLENGE := by rw [hst]; decide
    have h1 : ¬ st.state = STATE_AWAITING_RESPONSE := by rw [hst]; decide
    have h2 : ¬ st.state = STATE_AWAITING_WELCOME := by rw [hst]; decide
    unfold handleMessage
    rw [if_neg h0, if_neg h1, if_neg h2, if_pos hst]
    rcases hid with hid | hid | ⟨n, hid, hmap⟩
    · refine ⟨[.logWarn], ?_⟩
      rw [hid]
      simp [truthy]
    · refine ⟨[.logWarn], ?_⟩
      rw [hid]
      simp [truthy, truthyV]
    · by_cases hn : n = 0
      · subst hn
        refine ⟨[.logWarn], ?_⟩
        rw [hid]
        simp [truthy, truthyV]
      · refine ⟨[], ?_⟩
        rw [hid]
        simp [truthy, truthyV, hn, hmap]
  · intro st env m hst
    exact ⟨_, _, handleMessage_challenge st env m hst, rfl⟩
  · intro st env m post evs hst hok
    exact (response_step st env m post evs hst hok).1
  · intro st env m hst hkf hfield
    have h0 : ¬ st.state = STATE_AWAITING_CHALLENGE := by rw [hst]; decide
    unfold handleMessage
    rw [if_neg h0, if_pos hst, if_pos hkf, hfield]
  · intro st env m hst
    exact ⟨_, _, handleMessage_welcome st env m hst, rfl⟩

/-- Witness for the amended C2: an authenticated session discards the
empty object, leaving the state unchanged. -/
theorem authC2_amended_witness :
    handleMessage (exState STATE_FULLY_AUTHENTICATED) exEnv (.obj .fnil) =
      .ok (exState STATE_FULLY_AUTHENTICATED, [Event.logWarn]) := by
  have h := authC2_amended.1 (exState STATE_FULLY_AUTHENTICATED) exEnv (.obj .fnil)
    rfl (Or.inl rfl)
  obtain ⟨evs, hevs⟩ := h
  rfl

/-! ## Claim C5 -/

/-- Counterexample to C5: resolving an id with no registered resolver is a
no-op but emits no diagnostic at all (the empty trace) — the handler logs
only when the ID field is absent or zero, not when the ID is unknown. -/
theorem correlatorC5_counterexample :
    handleMessage (exState STATE_FULLY_AUTHENTICATED) exEnv
        (.obj (.fcons fID (.nat 5) .fnil)) =
      .ok (exState STATE_FULLY_AUTHENTICATED, ([] : List Event)) := rfl

/-- Claim C5 (amended): after a resolver is registered for a nonzero id,
a reply bearing that id calls exactly that resolver once with the reply
payload and removes the entry, so a second reply with the same id is a
no-op; a reply whose nonzero id has no registered resolver is a silent
no-op (a diagnostic is logged only when the ID field is absent or
zero). -/
theorem correlatorC5_amended :
    (∀ (st : EDSState) (env : Env) (m : Value) (id tag : Nat),
      st.state = STATE_FULLY_AUTHENTICATED → id ≠ 0 →
      getField m fID = some (.nat id) →
      handleMessage (waitForReply st id tag) env m =
        .ok ({ st with
                IDToResolver := mapDelete (mapSet st.IDToResolver id tag) id },
          [.resolveCb id tag m]) ∧
      mapGet (mapDelete (mapSet st.IDToResolver id tag) id) id = none) ∧
    (∀ (st : EDSState) (env : Env) (m : Value) (id : Nat),
      st.state = STATE_FULLY_AUTHENTICATED → id ≠ 0 →
      getField m fID = some (.nat id) → mapGet st.IDToResolver id = none →
      handleMessage st env m = .ok (st, [])) := by
  constructor
  · intro st env m id tag hst hid hfield
    have hst' : (waitForReply st id tag).state = STATE_FULLY_AUTHENTICATED := hst
    have h0 : ¬ (waitForReply st id tag).state = STATE_AWAITING_CHALLENGE := by
      rw [hst']; decide
    have h1 : ¬ (waitForReply st id tag).state = STATE_AWAITING_RESPONSE := by
      rw [hst']; decide
    have h2 : ¬ (waitForReply st id tag).state = STATE_AWAITING_WELCOME := by
      rw [hst']; decide
    refine ⟨?_, mapGet_mapDelete _ _⟩
    have htr : truthy (getField m fID) = true := by
      rw [hfield]; simp [truthy, truthyV, hid]
    unfold handleMessage
    rw [if_neg h0, if_neg h1, if_neg h2, if_pos hst', if_pos htr, hfield]
    have hmg : mapGet (waitForReply st id tag).IDToResolver id = some tag :=
      mapGet_mapSet _ _ _
    simp only [hmg]
    simp [waitForReply]
  · intro st env m id hst hid hfield hmap
    have h0 : ¬ st.state = STATE_AWAITING_CHALLENGE := by rw [hst]; decide
    have h1 : ¬ st.state = STATE_AWAITING_RESPONSE := by rw [hst]; decide
    have h2 : ¬ st.state = STATE_AWAITING_WELCOME := by rw [hst]; decide
    have htr : truthy (getField m fID) = true := by
      rw [hfield]; simp [truthy, truthyV, hid]
    unfold handleMessage
    rw [if_neg h0, if_neg h1, if_neg h2, if_pos hst, if_pos htr, hfield]
    simp [hmap]

/-- Witness for the amended C5: a registered resolver for id 5 receives
the reply exactly once and the entry is removed. -/
theorem correlatorC5_amended_witness :
    handleMessage (waitForReply (exState STATE_FULLY_AUTHENTICATED) 5 1) exEnv
        (.obj (.fcons fID (.nat 5) .fnil)) =
      .ok ({ exState STATE_FULLY_AUTHENTICATED with
              IDToResolver :=
                mapDelete (mapSet (exState STATE_FULLY_AUTHENTICATED).IDToResolver 5 1) 5 },
        [.resolveCb 5 1 (.obj (.fcons fID (.nat 5) .fnil))]) :=
  (correlatorC5_amended.1 (exState STATE_FULLY_AUTHENTICATED) exEnv
    (.obj (.fcons fID (.nat 5) .fnil)) 5 1 rfl (by decide) rfl).1

/-! ## Claim C3 -/

/-- Claim C3: starting in AwaitingChallenge, handling a well-formed
challenge message, then a key-response message the handler accepts, then a
welcome message reaches Authenticated, and exactly one write-gate-open
event occurs in the whole sequence, performed on the transition into
Authenticated (the third step). -/
theorem authC3 (s0 s1 s2 s3 : EDSState) (e1 e2 e3 : Env) (m1 m2 m3 : Value)
    (ev1 ev2 ev3 : List Event) (cb : Value)
    (h0 : s0.state = STATE_AWAITING_CHALLENGE)
    (hcb : getField m1 fChallengeBuffer = some cb)
    (h1 : handleMessage s0 e1 m1 = .ok (s1, ev1))
    (h2 : handleMessage s1 e2 m2 = .ok (s2, ev2))
    (h3 : handleMessage s2 e3 m3 = .ok (s3, ev3)) :
    s3.state = STATE_FULLY_AUTHENTICATED ∧
    countOpen (ev1 ++ ev2 ++ ev3) = 1 ∧
    countOpen ev1 = 0 ∧ countOpen ev2 = 0 ∧ countOpen ev3 = 1 := by
  rw [handleMessage_challenge s0 e1 m1 h0] at h1
  simp only [Except.ok.injEq, Prod.mk.injEq] at h1
  obtain ⟨hs1, hev1⟩ := h1
  have hs1state : s1.state = STATE_AWAITING_RESPONSE := by rw [← hs1]
  obtain ⟨hs2state, hev2count, -, -⟩ := response_step s1 e2 m2 s2 ev2 hs1state h2
  rw [handleMessage_welcome s2 e3 m3 hs2state] at h3
  simp only [Except.ok.injEq, Prod.mk.injEq] at h3
  obtain ⟨hs3, hev3⟩ := h3
  have hs3state : s3.state = STATE_FULLY_AUTHENTICATED := by rw [← hs3]
  have hev1count : countOpen ev1 = 0 := by
    rw [← hev1]
    simp [countOpen]
  have hev3count : countOpen ev3 = 1 := by
    rw [← hev3]
    by_cases hinit : s2.onInitializedSet <;>
      simp [hinit, countOpen, countOpen_append]
  refine ⟨hs3state, ?_, hev1count, hev2count, hev3count⟩
  rw [countOpen_append, countOpen_append, hev1count, hev2count, hev3count]

/-! Concrete three-step handshake run used by the C3 witness. -/

def c3s0 : EDSState := exState STATE_AWAITING_CHALLENGE

def c3m1 : Value := .obj (.fcons fChallengeBuffer (.bytes [1, 2]) .fnil)

def c3m2 : Value := .obj (.fcons fKeyFound (.bool false) .fnil)

def c3m3 : Value := .obj .fnil

def c3s1 : EDSState := { c3s0 with state := STATE_AWAITING_RESPONSE }

def c3ev1 : List Event :=
  [.sendControl (.obj (.fcons fAddress (.bytes c3s0.addressBytes)
    (.fcons fSignature (.bytes (walletSign (MESSAGE_PREFIX_BYTES ++
      jsToString (getField c3m1 fChallengeBuffer))))
    (.fcons fPKHash (.bytes c3s0.walletPKHash) .fnil))))]

def c3s2 : EDSState :=
  { c3s1 with
      privateKey := exEnv.genSecret
      publicKey := naclBoxPub exEnv.genSecret
      state := STATE_AWAITING_WELCOME }

def c3ev2 : List Event :=
  [.sendControl (.bytes (msgpackV (.arr (.cons (.nat 0x81)
    (.cons (.bytes (eciesEncrypt c3s1.walletPubKey (z85encode exEnv.genSecret)).ciphertext)
    (.cons (.bytes (eciesEncrypt c3s1.walletPubKey (z85encode exEnv.genSecret)).nonce)
    (.cons (.bytes (eciesEncrypt c3s1.walletPubKey (z85encode exEnv.genSecret)).ephemPublicKey)
      .nil)))))))]

def c3s3 : EDSState :=
  { c3s2 with
      state := STATE_FULLY_AUTHENTICATED
      onInitializedSet := false
      writeLockLocked := false }

def c3ev3 : List Event := [.logInfo, .initializedCb, .writeGateOpen]

/-- Witness for C3: the concrete challenge, key-not-found response and
welcome sequence reaches Authenticated with exactly one write-gate open,
in the third step. -/
theorem authC3_witness :
    c3s3.state = STATE_FULLY_AUTHENTICATED ∧
    countOpen (c3ev1 ++ c3ev2 ++ c3ev3) = 1 ∧
    countOpen c3ev1 = 0 ∧ countOpen c3ev2 = 0 ∧ countOpen c3ev3 = 1 :=
  authC3 c3s0 c3s1 c3s2 c3s3 exEnv exEnv exEnv c3m1 c3m2 c3m3 c3ev1 c3ev2 c3ev3
    (.bytes [1, 2]) rfl rfl rfl rfl rfl

/-! ## Claim C10 -/

theorem resolvesZero_single (n tag : Nat) (v : Value) (h : n ≠ 0) :
    resolvesZero [.resolveCb n tag v] = false := by
  cases n with
  | zero => exact absurd rfl h
  | succ k => rfl

/-- One handler step never delivers to, nor removes, a resolver registered
under request ID 0. -/
theorem handleMessage_zero (st : EDSState) (env : Env) (m : Value)
    (post : EDSState) (evs : List Event)
    (hok : handleMessage st env m = .ok (post, evs)) :
    mapGet post.IDToResolver 0 = mapGet st.IDToResolver 0 ∧
      resolvesZero evs = false := by
  unfold handleMessage at hok
  split at hok
  · simp only [Except.ok.injEq, Prod.mk.injEq] at hok
    obtain ⟨hpost, hevs⟩ := hok
    subst hpost; subst hevs
    simp [resolvesZero]
  · split at hok
    · split at hok
      · split at hok
        · split at hok
          · split at hok
            · split at hok
              · simp only [Except.ok.injEq, Prod.mk.injEq] at hok
                obtain ⟨hpost, hevs⟩ := hok
                subst hpost; subst hevs
                simp [resolvesZero]
              · simp at hok
            · simp at hok
          · simp at hok
        · simp at hok
      · simp only [Except.ok.injEq, Prod.mk.injEq] at hok
        obtain ⟨hpost, hevs⟩ := hok
        subst hpost; subst hevs
        simp [resolvesZero]
    · split at hok
      · simp only [Except.ok.injEq, Prod.mk.injEq] at hok
        obtain ⟨hpost, hevs⟩ := hok
        subst hpost; subst hevs
        refine ⟨rfl, ?_⟩
        split <;> simp [resolvesZero, resolvesZero_append]
      · split at hok
        · split at hok
          · rename_i htr
            split at hok
            · rename_i n heq
              split at hok
              · simp only [Except.ok.injEq, Prod.mk.injEq] at hok
                obtain ⟨hpost, hevs⟩ := hok
                subst hpost; subst hevs
                rw [heq] at htr
                simp only [truthy, truthyV, bne_iff_ne, ne_eq] at htr
                refine ⟨mapGet_mapDelete_ne _ _ _ (by omega), ?_⟩
                exact resolvesZero_single _ _ _ htr
              · simp only [Except.ok.injEq, Prod.mk.injEq] at hok
                obtain ⟨hpost, hevs⟩ := hok
                subst hpost; subst hevs
                simp [resolvesZero]
            · simp only [Except.ok.injEq, Prod.mk.injEq] at hok
              obtain ⟨hpost, hevs⟩ := hok
              subst hpost; subst hevs
              simp [resolvesZero]
          · simp only [Except.ok.injEq, Prod.mk.injEq] at hok
            obtain ⟨hpost, hevs⟩ := hok
            subst hpost; subst hevs
            simp [resolvesZero]
        · simp only [Except.ok.injEq, Prod.mk.injEq] at hok
          obtain ⟨hpost, hevs⟩ := hok
          subst hpost; subst hevs
          simp [resolvesZero]

/-- Across any sequence of inbound messages, an entry registered under
request ID 0 is never resolved and never removed. -/
theorem runMessages_zero (steps : List (Env × Value)) (st : EDSState) :
    mapGet (runMessages st steps).1.IDToResolver 0 = mapGet st.IDToResolver 0 ∧
      resolvesZero (runMessages st steps).2 = false := by
  induction steps generalizing st with
  | nil => simp [runMessages, resolvesZero]
  | cons p rest ih =>
    obtain ⟨env, m⟩ := p
    unfold runMessages
    cases hok : handleMessage st env m with
    | ok r =>
      obtain ⟨st', evs⟩ := r
      obtain ⟨hmap, hres⟩ := handleMessage_zero st env m st' evs hok
      obtain ⟨ihm, ihr⟩ := ih st'
      constructor
      · simpa using ihm.trans hmap
      · simp [resolvesZero_append, hres, ihr]
    | error e =>
      exact ih st

/-- Claim C10: in the Authenticated state a reply whose ID is 0 or absent
is logged and discarded, never delivered to any resolver; request IDs are
drawn by reading 4 random bytes as a little-endian 32-bit value, which can
be 0; and a pending resolver registered under ID 0 stays pending forever:
no sequence of inbound messages resolves or removes it. -/
theorem pendingC10 :
    randUint32 [0, 0, 0, 0] = 0 ∧
    (∀ b0 b1 b2 b3 : Nat, b0 < 256 → b1 < 256 → b2 < 256 → b3 < 256 →
      randUint32 [b0, b1, b2, b3] < 2 ^ 32) ∧
    (∀ (st : EDSState) (env : Env) (m : Value),
      st.state = STATE_FULLY_AUTHENTICATED →
      (getField m fID = none ∨ getField m fID = some (.nat 0)) →
      handleMessage st env m = .ok (st, [.logWarn])) ∧
    (∀ (st : EDSState) (steps : List (Env × Value)),
      mapGet (runMessages st steps).1.IDToResolver 0 = mapGet st.IDToResolver 0 ∧
      resolvesZero (runMessages st steps).2 = false) := by
  refine ⟨rfl, ?_, ?_, fun st steps => runMessages_zero steps st⟩
  · intro b0 b1 b2 b3 hb0 hb1 hb2 hb3
    have hp : (2 : Nat) ^ 32 = 4294967296 := by norm_num
    simp only [randUint32, List.getD, hp]
    simp
    omega
  · intro st env m hst hid
    have h0 : ¬ st.state = STATE_AWAITING_CHALLENGE := by rw [hst]; decide
    have h1 : ¬ st.state = STATE_AWAITING_RESPONSE := by rw [hst]; decide
    have h2 : ¬ st.state = STATE_AWAITING_WELCOME := by rw [hst]; decide
    unfold handleMessage
    rw [if_neg h0, if_neg h1, if_neg h2, if_pos hst]
    rcases hid with hid | hid
    · rw [hid]
      simp [truthy]
    · rw [hid]
      simp [truthy, truthyV]

/-- Witness for C10: the all-zero random draw allocates ID 0, and a reply
bearing ID 0 is logged and discarded even while a resolver is registered
under ID 0. -/
theorem pendingC10_witness :
    randUint32 [0, 0, 0, 0] = 0 ∧
    handleMessage (waitForReply (exState STATE_FULLY_AUTHENTICATED) 0 1) exEnv
        (.obj (.fcons fID (.nat 0) .fnil)) =
      .ok (waitForReply (exState STATE_FULLY_AUTHENTICATED) 0 1,
        [Event.logWarn]) :=
  ⟨pendingC10.1,
    pendingC10.2.2.1 (waitForReply (exState STATE_FULLY_AUTHENTICATED) 0 1) exEnv
      (.obj (.fcons fID (.nat 0) .fnil)) rfl (Or.inr rfl)⟩

/-! ## Claim C8 -/

/-- Claim C8: in AwaitingResponse with keyFound false a fresh keypair is
generated and a key-provisioning control frame containing the ordered
4-element sequence [0x81, ciphertext, nonce, ephemeralPublicKey] is sent,
the generated secret installed verbatim as the session private key; in the
keyFound branch the wallet-decrypted bytes are installed verbatim; in both
branches those exact bytes are the symmetric key of every envelope. -/
theorem provisionC8 :
    (∀ (st : EDSState) (env : Env) (m : Value),
      st.state = STATE_AWAITING_RESPONSE →
      truthy (getField m fKeyFound) = false →
      handleMessage st env m =
        .ok ({ st with
                privateKey := env.genSecret
                publicKey := naclBoxPub env.genSecret
                state := STATE_AWAITING_WELCOME },
          [.sendControl (.bytes (msgpackV (.arr (.cons (.nat 0x81)
            (.cons (.bytes (eciesEncrypt st.walletPubKey
              (z85encode env.genSecret)).ciphertext)
            (.cons (.bytes (eciesEncrypt st.walletPubKey
              (z85encode env.genSecret)).nonce)
            (.cons (.bytes (eciesEncrypt st.walletPubKey
              (z85encode env.genSecret)).ephemPublicKey) .nil)))))))]) ∧
      (∀ (nonce : List Nat) (v : Value),
        encryptData env.genSecret nonce v =
          nonce ++ secretbox (msgpackV v) nonce env.genSecret)) ∧
    (∀ (st : EDSState) (env : Env) (m : Value) (keyBuf ct n e d : List Nat),
      st.state = STATE_AWAITING_RESPONSE →
      truthy (getField m fKeyFound) = true →
      getField m fEncryptedPrivateKey = some (.bytes keyBuf) →
      msgunpack keyBuf = some (.arr (.cons (.nat 0x81) (.cons (.bytes ct)
        (.cons (.bytes n) (.cons (.bytes e) .nil))))) →
      ethDecrypt st.walletPubKey ct = some d →
      handleMessage st env m =
        .ok ({ st with
                privateKey := z85decode d
                publicKey := naclBoxPub (z85decode d)
                state := STATE_AWAITING_WELCOME }, []) ∧
      (∀ (nonce : List Nat) (v : Value),
        encryptData (z85decode d) nonce v =
          nonce ++ secretbox (msgpackV v) nonce (z85decode d))) := by
  constructor
  · intro st env m hst hkf
    have h0 : ¬ st.state = STATE_AWAITING_CHALLENGE := by rw [hst]; decide
    have hkf' : ¬ truthy (getField m fKeyFound) = true := by rw [hkf]; decide
    refine ⟨?_, fun nonce v => rfl⟩
    unfold handleMessage
    rw [if_neg h0, if_pos hst, if_neg hkf']
  · intro st env m keyBuf ct n e d hst hkf hfield hunpack hdec
    have h0 : ¬ st.state = STATE_AWAITING_CHALLENGE := by rw [hst]; decide
    refine ⟨?_, fun nonce v => rfl⟩
    unfold handleMessage
    rw [if_neg h0, if_pos hst, if_pos hkf, hfield]
    simp only [hunpack, hdec]
    simp

/-- Witness for C8 at a concrete state and generated secret. -/
theorem provisionC8_witness :
    handleMessage (exState STATE_AWAITING_RESPONSE) exEnv (.obj .fnil) =
      .ok ({ exState STATE_AWAITING_RESPONSE with
              privateKey := exEnv.genSecret
              publicKey := naclBoxPub exEnv.genSecret
              state := STATE_AWAITING_WELCOME },
        [.sendControl (.bytes (msgpackV (.arr (.cons (.nat 0x81)
          (.cons (.bytes (eciesEncrypt (exState STATE_AWAITING_RESPONSE).walletPubKey
            (z85encode exEnv.genSecret)).ciphertext)
          (.cons (.bytes (eciesEncrypt (exState STATE_AWAITING_RESPONSE).walletPubKey
            (z85encode exEnv.genSecret)).nonce)
          (.cons (.bytes (eciesEncrypt (exState STATE_AWAITING_RESPONSE).walletPubKey
            (z85encode exEnv.genSecret)).ephemPublicKey) .nil)))))))]) :=
  (provisionC8.1 (exState STATE_AWAITING_RESPONSE) exEnv (.obj .fnil) rfl rfl).1

/-! ## Claim C1 -/

/-- Specification of one bulk-reply row: its `Data` is a buffer whose
envelope either fails authenticated decryption (result `none`, the row is
skipped) or decrypts and deserializes to a value. -/
def rowSpec (privateKey : List Nat) (row : Value) (res : Option Value) : Prop :=
  ∃ d, getField row fData = some (.bytes d) ∧
    ((res = none ∧
        secretboxOpen (d.drop naclNonceLength) (d.take naclNonceLength)
          privateKey = none) ∨
     (∃ v plain, res = some v ∧
        secretboxOpen (d.drop naclNonceLength) (d.take naclNonceLength)
          privateKey = some plain ∧
        msgunpack plain = some v))

/-- One logged warning per dropped row. -/
def rowWarnings : List (Option Value) → List Event
  | [] => []
  | none :: rest => Event.logWarn :: rowWarnings rest
  | some _ :: rest => rowWarnings rest

/-- Counterexample to C1: a single-value reply whose Data was sealed under
a different key makes the read throw (the failed decryption result null is
fed to the deserializer) instead of returning absent. -/
theorem edsC1_counterexample :
    decryptDataResponse [2] (.obj (.fcons fExists (.bool true)
      (.fcons fData (.bytes (encryptData [1] nonce24 (.nat 7))) .fnil))) =
      .error () := rfl

/-- Claim C1 (amended): for the single-value reads (getKey, delKey,
getRowByKey), a reply with falsy Exists yields absent (undefined) without
throwing, but a reply whose Data fails authenticated decryption makes the
operation throw rather than return absent; for getRowsUpdatedSince, every
row whose Data fails decryption is dropped from the returned array with a
logged warning and the remaining rows are returned in order. -/
theorem edsC1_amended :
    (∀ (privateKey : List Nat) (reply : Value),
      truthy (getField reply fExists) = false →
      decryptDataResponse privateKey reply = .ok none) ∧
    (∀ (privateKey d : List Nat) (reply : Value),
      truthy (getField reply fExists) = true →
      getField reply fData = some (.bytes d) →
      secretboxOpen (d.drop naclNonceLength) (d.take naclNonceLength)
        privateKey = none →
      decryptDataResponse privateKey reply = .error ()) ∧
    (∀ (privateKey : List Nat) (rows : List Value)
        (results : List (Option Value)),
      List.Forall₂ (rowSpec privateKey) rows results →
      processRows privateKey rows =
        .ok (results.filterMap id, rowWarnings results)) := by
  refine ⟨?_, ?_, ?_⟩
  · intro privateKey reply hEx
    simp [decryptDataResponse, hEx]
  · intro privateKey d reply hEx hD hopen
    unfold decryptDataResponse
    rw [hEx]
    simp only [Bool.true_eq_false, if_false, hD, hopen]
  · intro privateKey rows results hf
    induction hf with
    | nil => simp [processRows, rowWarnings]
    | cons hrel hrest ih =>
      obtain ⟨d, hd, hcase⟩ := hrel
      rcases hcase with ⟨hres, hopen⟩ | ⟨v, plain, hres, hopen, hun⟩
      · subst hres
        unfold processRows
        rw [hd]
        simp [hopen, ih, rowWarnings, Except.map]
      · subst hres
        unfold processRows
        rw [hd]
        simp [hopen, hun, ih, rowWarnings, Except.map]

/-- A bulk row sealed under a different key (undecryptable). -/
def c1BadRow : Value :=
  .obj (.fcons fData (.bytes (encryptData [2] nonce24 (.nat 9))) .fnil)

/-- A bulk row sealed under the session key. -/
def c1GoodRow : Value :=
  .obj (.fcons fData (.bytes (encryptData [1] nonce24 (.nat 7))) .fnil)

/-- Witness for the amended C1: a missing value is absent, and a two-row
bulk reply with one undecryptable row returns the surviving row and logs
one warning. -/
theorem edsC1_amended_witness :
    decryptDataResponse [1] (.obj (.fcons fExists (.bool false) .fnil)) =
      .ok none ∧
    processRows [1] [c1BadRow, c1GoodRow] = .ok ([.nat 7], [Event.logWarn]) := by
  constructor
  · exact edsC1_amended.1 [1] _ rfl
  · have hbad : rowSpec [1] c1BadRow none :=
      ⟨encryptData [2] nonce24 (.nat 9), rfl, Or.inl ⟨rfl, rfl⟩⟩
    have hgood : rowSpec [1] c1GoodRow (some (.nat 7)) :=
      ⟨encryptData [1] nonce24 (.nat 7), rfl,
        Or.inr ⟨.nat 7, msgpackV (.nat 7), rfl, rfl, rfl⟩⟩
    have h := edsC1_amended.2.2 [1] [c1BadRow, c1GoodRow] [none, some (.nat 7)]
      (List.Forall₂.cons hbad (List.Forall₂.cons hgood List.Forall₂.nil))
    simpa [rowWarnings] using h
